import Mathlib

/-
Verification of the AI convergence runner.

The development shallowly embeds the convergence engine
(src/lib/utils/convergence-engine.ts), the template and provider registries
(src/lib/templates/index.ts, src/lib/providers/index.ts) and the structured
response validator (src/lib/utils/json.ts).

Modelling conventions:
* JavaScript numbers are modelled as rationals, JavaScript strings as Lean
  strings (or as lists of characters where the code performs string surgery).
* Throwing code is modelled with `Except String`; a thrown error propagating
  to the engine's try/catch boundary is modelled by returning the fallback
  result directly at the throw site, which is observationally identical.
* The external generators (`writer.generate`, `collaborator.generateJson`)
  are modelled as oracles indexed by the round number of the call.  Prompt
  strings assembled by the engine feed only into those oracles and never
  into the engine's own control flow, so they are not reproduced here.
* Wall-clock fields (`timeMs`, `totalTimeMs`) and the constant-zero token
  and cost placeholders are omitted.
* The result record additionally carries two verification traces that the
  engine maintains anyway as local state: `unresolvedQuestions` (the
  accumulated question list) and `completedDrafts` (the outputs of every
  completed writer call, in order).
-/

deriving instance DecidableEq for Except

/-- The four canonical stop reasons (src/lib/types/index.ts, `StopReason`). -/
inductive StopReason where
  | THRESHOLD_MET
  | MAX_ROUNDS
  | NO_IMPROVEMENT
  | ERROR_FALLBACK
deriving DecidableEq

/-- A collaborator patch (src/lib/types/index.ts, `Patch`). -/
structure Patch where
  path : String
  operation : String
  content : String
deriving DecidableEq

/-- Collaborator feedback (engine's `ExtendedCollaboratorResponse`): the
`CollaboratorResponse` fields plus the optional `shouldStop`/`stopReason`
extension.  The engine never reads `shouldStop`; only the `stopReason`
string participates in stop evaluation. -/
structure CollaboratorResponse where
  score : ℚ
  ready : Bool
  mustFix : List String
  shouldImprove : List String
  questions : List String
  patches : List Patch
  noMaterialImprovements : Bool
  shouldStop : Option Bool
  stopReason : Option String
deriving DecidableEq

/-- One convergence round (src/lib/types/index.ts, `ConvergenceRound`,
without the wall-clock and token placeholder fields). -/
structure ConvergenceRound where
  roundNum : ℕ
  draft : String
  collaboratorFeedback : CollaboratorResponse
deriving DecidableEq

/-- A convergence policy (src/lib/types/index.ts, `ConvergencePolicy`). -/
structure ConvergencePolicy where
  maxRounds : ℕ
  scoreThreshold : ℚ
  requireQuestionsResolved : Bool
  requireAllSectionsPresent : Bool
deriving DecidableEq

/-- An artifact template, restricted to the fields the engine's control flow
reads.  The prompt texts and the rubric feed only into generated prompt
strings, which are absorbed into the generator oracles. -/
structure ArtifactTemplate where
  id : String
  convergencePolicy : ConvergencePolicy
deriving DecidableEq

/-- src/lib/templates/software-spec.ts, `emailReplyTemplate.convergencePolicy`. -/
def emailReplyTemplate : ArtifactTemplate :=
  { id := "email-reply"
    convergencePolicy :=
      { maxRounds := 3, scoreThreshold := 9
        requireQuestionsResolved := false, requireAllSectionsPresent := false } }

/-- src/lib/templates/software-spec.ts, `softwareSpecTemplate.convergencePolicy`. -/
def softwareSpecTemplate : ArtifactTemplate :=
  { id := "software-spec"
    convergencePolicy :=
      { maxRounds := 5, scoreThreshold := 9
        requireQuestionsResolved := true, requireAllSectionsPresent := true } }

/-- The template registry (src/lib/templates/index.ts, `templates`). -/
def templates : List (String × ArtifactTemplate) :=
  [("email-reply", emailReplyTemplate), ("software-spec", softwareSpecTemplate)]

/-- src/lib/templates/index.ts, `getTemplate`: throws on an unknown id. -/
def getTemplate (id : String) : Except String ArtifactTemplate :=
  match templates.lookup id with
  | some t => .ok t
  | none => .error ("Template not found: " ++ id)

/-- src/lib/providers/index.ts, `getProvider`: the switch succeeds exactly on
the three known provider tags and throws otherwise.  The adapter object
itself carries no engine-visible state, so the model returns `Unit`. -/
def getProvider (t : String) : Except String Unit :=
  if t = "openai" ∨ t = "anthropic" ∨ t = "google" then .ok ()
  else .error ("Provider not found: " ++ t)

/-- Session inputs (src/lib/types/index.ts, `ConvergeRequest`). -/
structure ConvergeRequest where
  idea : String
  context : Option String
  templateId : String
  writerProvider : String
  collaboratorProvider : String
  writerModel : String
  collaboratorModel : String
  maxRounds : Option ℕ
  scoreThreshold : Option ℚ

/-- JavaScript `requested || fallback` on an optional natural number:
`undefined` and the falsy value `0` both select the fallback
(convergence-engine.ts line 96). -/
def jsOrNat (requested : Option ℕ) (fallback : ℕ) : ℕ :=
  match requested with
  | some n => if n = 0 then fallback else n
  | none => fallback

/-- JavaScript `requested || fallback` on an optional number:
`undefined` and the falsy value `0` both select the fallback
(convergence-engine.ts line 97). -/
def jsOrRat (requested : Option ℚ) (fallback : ℚ) : ℚ :=
  match requested with
  | some q => if q = 0 then fallback else q
  | none => fallback

/-- convergence-engine.ts, `writerTemperature`: 0.7 for `roundNum <= 1`,
otherwise `Math.round((0.55 - t * 0.25) * 100) / 100` where
`t = Math.max(0, (roundNum - 2) / Math.max(1, maxRounds - 2))`.
`Math.round` (round half toward positive infinity) is Mathlib's `round`. -/
def writerTemperature (roundNum maxRounds : ℕ) : ℚ :=
  if roundNum ≤ 1 then 7/10
  else
    ((round ((55/100 - (max 0 (((roundNum : ℚ) - 2) / max 1 ((maxRounds : ℚ) - 2)))
        * (25/100)) * 100) : ℤ) : ℚ) / 100

/-- convergence-engine.ts lines 170-176: the string is a valid explicit stop
signal exactly when it names one of the four canonical reasons; any other
string (and an absent one) yields `none` and falls through. -/
def toStopReason : String → Option StopReason
  | "THRESHOLD_MET" => some .THRESHOLD_MET
  | "MAX_ROUNDS" => some .MAX_ROUNDS
  | "NO_IMPROVEMENT" => some .NO_IMPROVEMENT
  | "ERROR_FALLBACK" => some .ERROR_FALLBACK
  | _ => none

/-- convergence-engine.ts lines 150-159: the deduplication set is built once
from the accumulated list and is not extended while the round's questions
are pushed, so a text occurring twice inside one round's `questions` is
appended twice. -/
def mergeQuestions (unresolved : List String) (qs : List String) : List String :=
  unresolved ++ qs.filter (fun q => !unresolved.contains q)

/-- Outcome of one stop evaluation. -/
inductive StepDecision where
  | stop (reason : StopReason)
  | next (newLastScore : ℚ) (newStallCount : ℕ)
deriving DecidableEq

/-- convergence-engine.ts lines 169-194, the per-round stop logic in source
order: a valid explicit `stopReason` wins; else the threshold rule; else the
stall counter is incremented on `score <= lastScore` or
`noMaterialImprovements` (reset to 0 otherwise) and the round stops with
`NO_IMPROVEMENT` when the updated counter reaches 2 or
`noMaterialImprovements` holds; otherwise the loop continues with
`lastScore = score`. -/
def evaluateStop (threshold : ℚ) (feedback : CollaboratorResponse)
    (lastScore : ℚ) (scoreStallCount : ℕ) : StepDecision :=
  match feedback.stopReason.bind toStopReason with
  | some r => .stop r
  | none =>
    if threshold ≤ feedback.score ∧ feedback.ready = true then .stop .THRESHOLD_MET
    else
      let stall' := if feedback.score ≤ lastScore ∨ feedback.noMaterialImprovements = true
        then scoreStallCount + 1 else 0
      if 2 ≤ stall' ∨ feedback.noMaterialImprovements = true then .stop .NO_IMPROVEMENT
      else .next feedback.score stall'

/-- The generator oracles: the initial-draft writer call, and the per-round
collaborator feedback and writer revision calls.  `Except.error` models the
call throwing (network/auth failure, or validator exhaustion for the
feedback calls). -/
structure GenOracles where
  initialDraft : Except String String
  feedback : ℕ → Except String CollaboratorResponse
  revision : ℕ → Except String String

/-- The engine's result (src/lib/types/index.ts `ConvergeResponse` flattened
with its `ConvergenceResult` payload, minus placeholder cost/token/timing
fields, plus the two verification traces described in the header). -/
structure EngineResult where
  success : Bool
  error : Option String
  final : String
  stopReason : StopReason
  rounds : List ConvergenceRound
  unresolvedQuestions : List String
  completedDrafts : List String
deriving DecidableEq

/-- The catch-block result (convergence-engine.ts lines 280-299): failure
flag, the error message, `ERROR_FALLBACK`, and the draft and rounds
accumulated so far. -/
def mkError (e : String) (final : String) (rounds : List ConvergenceRound)
    (uq : List String) (drafts : List String) : EngineResult :=
  { success := false, error := some e, final := final,
    stopReason := .ERROR_FALLBACK, rounds := rounds,
    unresolvedQuestions := uq, completedDrafts := drafts }

/-- The success result (convergence-engine.ts lines 263-278). -/
def mkSuccess (final : String) (r : StopReason) (rounds : List ConvergenceRound)
    (uq : List String) (drafts : List String) : EngineResult :=
  { success := true, error := none, final := final, stopReason := r,
    rounds := rounds, unresolvedQuestions := uq, completedDrafts := drafts }

/-- The `for (let roundNum = 1; roundNum <= maxRounds; roundNum++)` loop of
`runConvergence` (convergence-engine.ts lines 116-261), as fuel-counted
recursion: the fuel is the number of iterations still permitted
(`maxRounds - roundNum + 1`), so fuel 0 is exactly loop exit, which keeps
the initial `stopReason = MAX_ROUNDS`.  Source order inside one iteration:
feedback call, question accumulation, round append, stop evaluation
(breaking on stop), then the revision call. -/
def convergenceLoop (o : GenOracles) (threshold : ℚ) :
    ℕ → ℕ → String → ℚ → ℕ → List String → List ConvergenceRound →
    List String → EngineResult
  | 0, _, currentDraft, _, _, uq, rounds, drafts =>
      mkSuccess currentDraft .MAX_ROUNDS rounds uq drafts
  | fuel + 1, roundNum, currentDraft, lastScore, stall, uq, rounds, drafts =>
      match o.feedback roundNum with
      | .error e => mkError e currentDraft rounds uq drafts
      | .ok feedback =>
        let uq' := mergeQuestions uq feedback.questions
        let rounds' := rounds ++ [⟨roundNum, currentDraft, feedback⟩]
        match evaluateStop threshold feedback lastScore stall with
        | .stop r => mkSuccess currentDraft r rounds' uq' drafts
        | .next ls' st' =>
          match o.revision roundNum with
          | .error e => mkError e currentDraft rounds' uq' drafts
          | .ok newDraft =>
            convergenceLoop o threshold fuel (roundNum + 1) newDraft ls' st'
              uq' rounds' (drafts ++ [newDraft])

/-- convergence-engine.ts, `runConvergence`: template resolution, provider
setup, effective policy via `||` fallback, initial draft, then the round
loop starting at round 1 with `lastScore = 0` and `scoreStallCount = 0`. -/
def runConvergence (request : ConvergeRequest) (o : GenOracles) : EngineResult :=
  match getTemplate request.templateId with
  | .error e => mkError e "" [] [] []
  | .ok template =>
    match getProvider request.writerProvider, getProvider request.collaboratorProvider with
    | .error e, _ => mkError e "" [] [] []
    | .ok _, .error e => mkError e "" [] [] []
    | .ok _, .ok _ =>
      let maxRounds := jsOrNat request.maxRounds template.convergencePolicy.maxRounds
      let threshold := jsOrRat request.scoreThreshold template.convergencePolicy.scoreThreshold
      match o.initialDraft with
      | .error e => mkError e "" [] [] []
      | .ok draft =>
        convergenceLoop o threshold maxRounds 1 draft 0 0 [] [] [draft]

/-- A feedback record with the fields not under test defaulted, used by the
concrete scenarios below. -/
def mkFeedback (score : ℚ) (ready : Bool) (qs : List String) (noMat : Bool)
    (stopR : Option String) : CollaboratorResponse :=
  { score := score, ready := ready, mustFix := [], shouldImprove := [],
    questions := qs, patches := [], noMaterialImprovements := noMat,
    shouldStop := none, stopReason := stopR }

/-- A session request against the email-reply template
(effective maxRounds 3, threshold 9) with no overrides. -/
def reqEmail : ConvergeRequest :=
  { idea := "reply", context := none, templateId := "email-reply",
    writerProvider := "openai", collaboratorProvider := "anthropic",
    writerModel := "gpt-4o-mini", collaboratorModel := "claude-3-haiku-20240307",
    maxRounds := none, scoreThreshold := none }

/-- Scenario: the round-1 collaborator call throws. -/
def oFail : GenOracles :=
  ⟨.ok "draft0", fun _ => .error "network down", fun _ => .ok "draftX"⟩

/-- Scenario: every feedback is score 9 and ready. -/
def oThresh : GenOracles :=
  ⟨.ok "d0", fun _ => .ok (mkFeedback 9 true [] false none),
    fun n => .ok ("d" ++ toString n)⟩

/-- Scenario: round-1 feedback carries an explicit THRESHOLD_MET signal with
score 0 and ready false. -/
def oExplicitThresh : GenOracles :=
  ⟨.ok "d0", fun _ => .ok (mkFeedback 0 false [] false (some "THRESHOLD_MET")),
    fun _ => .ok "d1"⟩

/-- Scenario: constant score 5, never ready, no material-improvement flag. -/
def oStall : GenOracles :=
  ⟨.ok "d0", fun _ => .ok (mkFeedback 5 false [] false none),
    fun n => .ok ("d" ++ toString n)⟩

/-- Scenario: round-1 feedback lists the same question text twice and stops
explicitly. -/
def oDupQ : GenOracles :=
  ⟨.ok "d0", fun _ => .ok (mkFeedback 5 false ["Q1", "Q1"] false (some "NO_IMPROVEMENT")),
    fun _ => .ok "d1"⟩

/-- Scenario: an explicit NO_IMPROVEMENT signal despite score 9 and ready. -/
def oExplicitNoImp : GenOracles :=
  ⟨.ok "d0", fun _ => .ok (mkFeedback 9 true [] false (some "NO_IMPROVEMENT")),
    fun _ => .ok "d1"⟩

/-- Scenario: the round-1 revision call throws. -/
def oRevFail : GenOracles :=
  ⟨.ok "d0", fun _ => .ok (mkFeedback 5 false [] false none), fun _ => .error "boom"⟩

/-- A placeholder round used as the default of `List.getLastD`. -/
def defaultRound : ConvergenceRound := ⟨0, "", mkFeedback 0 false [] false none⟩

/-
The structured response validator (src/lib/utils/json.ts, `validateAndRetry`).
Text is modelled as `List Char` because the validator performs string
surgery.  The external JSON library (`JSON.parse`) and the schema library
(`schema.parse`) are parameters `jp` and `sp`; the fence stripping, the
substring extraction and the retry loop are embedded from the source.
-/

/-- The backtick character (codepoint 96). -/
def bt : Char := Char.ofNat 96

/-- The three-backtick code-fence marker. -/
def fenceChars : List Char := [bt, bt, bt]

/-- The JSON-tagged code-fence opener. -/
def jsonFenceChars : List Char := [bt, bt, bt, 'j', 's', 'o', 'n']

/-- The characters relevant to the extraction step: opening and closing
braces (codepoints 123/125) and brackets (codepoints 91/93). -/
def openBraceChar : Char := Char.ofNat 123

/-- Closing brace (codepoint 125). -/
def closeBraceChar : Char := Char.ofNat 125

/-- Opening bracket (codepoint 91). -/
def openBrackChar : Char := Char.ofNat 91

/-- Closing bracket (codepoint 93). -/
def closeBrackChar : Char := Char.ofNat 93

/-- The suffix after the first occurrence of `sep` (none when `sep` does
not occur).  `someSuffix.isSome` is JavaScript's `includes`. -/
def afterFirstOcc (sep : List Char) : List Char → Option (List Char)
  | [] => if sep.isPrefixOf ([] : List Char) then some [] else none
  | c :: t =>
    if sep.isPrefixOf (c :: t) then some ((c :: t).drop sep.length)
    else afterFirstOcc sep t

/-- The prefix before the first occurrence of `sep` (all of `s` when `sep`
does not occur). -/
def beforeFirstOcc (sep : List Char) : List Char → List Char
  | [] => []
  | c :: t => if sep.isPrefixOf (c :: t) then [] else c :: beforeFirstOcc sep t

/-- JavaScript `s.includes(sep)` for a non-empty separator. -/
def containsSub (sep s : List Char) : Bool := (afterFirstOcc sep s).isSome

/-- The whitespace characters stripped by `trim` (the ASCII ones the code
can encounter: space, newline, tab, carriage return). -/
def isWs (c : Char) : Bool := c = ' ' ∨ c = '\n' ∨ c = '\t' ∨ c = '\r'

/-- JavaScript `s.trim()`: drop whitespace from both ends. -/
def trimChars (s : List Char) : List Char :=
  ((s.dropWhile isWs).reverse.dropWhile isWs).reverse

/-- JavaScript `s.indexOf(c)`: first index or -1. -/
def firstIdx (c : Char) : List Char → Int
  | [] => -1
  | x :: t =>
    if x = c then 0
    else
      let r := firstIdx c t
      if r = -1 then -1 else r + 1

/-- JavaScript `s.lastIndexOf(c)`: last index or -1. -/
def lastIdx (c : Char) (s : List Char) : Int :=
  let r := firstIdx c s.reverse
  if r = -1 then -1 else (s.length : Int) - 1 - r

/-- json.ts lines 13-18: strip one fenced code block — after the first
JSON-tagged fence marker take everything up to the next fence marker and
trim; else the same with a plain fence; else leave the text alone.
`content.split(sep)[1].split(fence)[0]` equals the before-first-fence
prefix of the after-first-`sep` suffix because every later `sep`
occurrence starts with the fence marker itself. -/
def stripFences (content : List Char) : List Char :=
  if containsSub jsonFenceChars content then
    trimChars (beforeFirstOcc fenceChars ((afterFirstOcc jsonFenceChars content).getD []))
  else if containsSub fenceChars content then
    trimChars (beforeFirstOcc fenceChars ((afterFirstOcc fenceChars content).getD []))
  else content

/-- json.ts lines 20-49, one attempt's parse pipeline: strip fences, try
`JSON.parse` + `schema.parse` on the cleaned text (the inner try covers
both); on failure locate the first opening brace/bracket and the last
closing brace/bracket, and when they delimit a nonempty slice parse and
validate the slice, otherwise rethrow the original parse error. -/
def parseAttempt {J T : Type} (jp : List Char → Except String J)
    (sp : J → Except String T) (content : List Char) : Except String T :=
  let cleaned := stripFences content
  match (jp cleaned).bind sp with
  | .ok v => .ok v
  | .error parseError =>
    let firstBrace := firstIdx openBraceChar cleaned
    let firstBracket := firstIdx openBrackChar cleaned
    let start :=
      if firstBrace ≠ -1 ∧ (firstBracket = -1 ∨ firstBrace < firstBracket)
      then firstBrace else firstBracket
    if start ≠ -1 then
      let lastBrace := lastIdx closeBraceChar cleaned
      let lastBracket := lastIdx closeBrackChar cleaned
      let stop :=
        if lastBrace ≠ -1 ∧ (lastBracket = -1 ∨ lastBracket < lastBrace)
        then lastBrace else lastBracket
      if stop ≠ -1 ∧ start < stop then
        ((jp ((cleaned.drop start.toNat).take (stop.toNat + 1 - start.toNat))).bind sp)
      else .error parseError
    else .error parseError

/-- One whole attempt: a fresh generation (indexed by the attempt number,
a throwing generator is a failed attempt) followed by the parse pipeline. -/
def attemptRun {J T : Type} (gen : ℕ → Except String (List Char))
    (jp : List Char → Except String J) (sp : J → Except String T)
    (attempt : ℕ) : Except String T :=
  (gen attempt).bind (parseAttempt jp sp)

/-- json.ts line 53: the message of the error thrown after exhausting all
attempts, embedding the last attempt's error message (JavaScript renders an
absent error as "undefined"). -/
def finalError (maxRetries : ℕ) (lastErr : Option String) : String :=
  "Failed to generate valid JSON after " ++ toString maxRetries ++
    " retries: " ++ lastErr.getD "undefined"

/-- The `for (let attempt = 0; attempt <= maxRetries; attempt++)` loop of
`validateAndRetry`, as fuel-counted recursion (the fuel is the number of
attempts still permitted, `maxRetries - attempt + 1`); exhausted fuel is
loop exit, which throws the final error.  The second component counts the
`generateFn` calls made. -/
def varLoop {J T : Type} (gen : ℕ → Except String (List Char))
    (jp : List Char → Except String J) (sp : J → Except String T)
    (maxRetries : ℕ) : ℕ → ℕ → Option String → Except String T × ℕ
  | 0, _, lastErr => (.error (finalError maxRetries lastErr), 0)
  | fuel + 1, attempt, _ =>
    match attemptRun gen jp sp attempt with
    | .ok v => (.ok v, 1)
    | .error e =>
      let r := varLoop gen jp sp maxRetries fuel (attempt + 1) (some e)
      (r.1, r.2 + 1)

/-- json.ts, `validateAndRetry`: up to `maxRetries + 1` attempts starting
at attempt 0 with no recorded error. -/
def validateAndRetry {J T : Type} (gen : ℕ → Except String (List Char))
    (jp : List Char → Except String J) (sp : J → Except String T)
    (maxRetries : ℕ) : Except String T × ℕ :=
  varLoop gen jp sp maxRetries (maxRetries + 1) 0 none

/-- src/lib/providers/openai-adapter.ts, `generateJson`: delegates to
`validateAndRetry(generateFn, zodSchema)` with the `maxRetries` argument
omitted, so the TypeScript default value 1 applies. -/
def openAIGenerateJson {J T : Type} (gen : ℕ → Except String (List Char))
    (jp : List Char → Except String J) (sp : J → Except String T) :
    Except String T × ℕ :=
  validateAndRetry gen jp sp 1

/-- src/lib/providers/anthropic-adapter.ts, `generateJson`: same omitted
`maxRetries`, default 1. -/
def anthropicGenerateJson {J T : Type} (gen : ℕ → Except String (List Char))
    (jp : List Char → Except String J) (sp : J → Except String T) :
    Except String T × ℕ :=
  validateAndRetry gen jp sp 1

/-- src/lib/providers/google-adapter.ts, `generateJson`: its `generateFn`
additionally pre-strips markdown fences from the model text before handing
it to the validator, again with `maxRetries` omitted (default 1). -/
def googleGenerateJson {J T : Type} (gen : ℕ → Except String (List Char))
    (jp : List Char → Except String J) (sp : J → Except String T) :
    Except String T × ℕ :=
  validateAndRetry (fun i => (gen i).map stripFences) jp sp 1

/-- Wrapping a serialized payload in a single JSON-tagged fenced code
block, as in spec scenario 3. -/
def wrapJsonFence (txt : List Char) : List Char :=
  jsonFenceChars ++ '\n' :: (txt ++ '\n' :: fenceChars)

/-- Model of the external JSON library restricted to top-level string
payloads without escapes: `JSON.stringify` quotes the text. -/
def jsonStringifyStr (s : List Char) : List Char := '"' :: (s ++ ['"'])

/-- Model of `JSON.parse` on the same fragment: accepts exactly a quoted
string whose body contains no quote and no backslash, rejects everything
else (in particular any unterminated string). -/
def jsonParseStr (s : List Char) : Except String (List Char) :=
  match s with
  | [] => .error "Unexpected end of JSON input"
  | c :: rest =>
    if c = '"' ∧ rest ≠ [] ∧ rest.getLast? = some '"' ∧
        rest.dropLast.all (fun x => x ≠ '"' ∧ x ≠ '\\')
    then .ok rest.dropLast
    else .error "Unexpected token in JSON"

/-- The counterexample payload for the repair round-trip: a schema-valid
string whose text contains a fence marker. -/
def payloadCEx : List Char := ['a', bt, bt, bt, 'b']

/-- A generator whose attempt 0 is unparsable and whose attempt 1 is a
valid quoted string. -/
def genRetryW : ℕ → Except String (List Char) :=
  fun i => if i = 0 then .ok ['x'] else .ok (jsonStringifyStr ['o', 'k'])

/-- A generator that always yields unparsable text. -/
def genFailW : ℕ → Except String (List Char) := fun _ => .ok ['x']

lemma range'_one_concat (k : ℕ) : List.range' 1 k ++ [k + 1] = List.range' 1 (k + 1) := by
  have h : 1 + 1 * k = k + 1 := by omega
  rw [List.range'_concat, h]

/-- Any unsuccessful loop outcome carries the `ERROR_FALLBACK` reason. -/
lemma loop_success_false_stopReason (o : GenOracles) (threshold : ℚ) :
    ∀ fuel n d ls st uq rds dr,
      (convergenceLoop o threshold fuel n d ls st uq rds dr).success = false →
      (convergenceLoop o threshold fuel n d ls st uq rds dr).stopReason = .ERROR_FALLBACK := by
  intro fuel
  induction fuel with
  | zero =>
    intro n d ls st uq rds dr h
    simp [convergenceLoop, mkSuccess] at h
  | succ f ih =>
    intro n d ls st uq rds dr h
    simp only [convergenceLoop] at h ⊢
    cases hf : o.feedback n with
    | error e => simp [hf, mkError]
    | ok fb =>
      simp only [hf] at h ⊢
      cases hs : evaluateStop threshold fb ls st with
      | stop r => simp [hs, mkSuccess] at h
      | next ls' st' =>
        simp only [hs] at h ⊢
        cases hr : o.revision n with
        | error e => simp [hr, mkError]
        | ok nd =>
          simp only [hr] at h ⊢
          exact ih _ _ _ _ _ _ _ h

/-- The final text always equals the last completed writer output. -/
lemma loop_final_eq_lastDraft (o : GenOracles) (threshold : ℚ) :
    ∀ fuel n d ls st uq rds dr, d = dr.getLastD "" →
      (convergenceLoop o threshold fuel n d ls st uq rds dr).final =
        (convergenceLoop o threshold fuel n d ls st uq rds dr).completedDrafts.getLastD "" := by
  intro fuel
  induction fuel with
  | zero =>
    intro n d ls st uq rds dr hd
    simpa [convergenceLoop, mkSuccess] using hd
  | succ f ih =>
    intro n d ls st uq rds dr hd
    simp only [convergenceLoop]
    cases hf : o.feedback n with
    | error e => simpa [mkError] using hd
    | ok fb =>
      simp only [hf]
      cases hs : evaluateStop threshold fb ls st with
      | stop r => simpa [mkSuccess] using hd
      | next ls' st' =>
        simp only [hs]
        cases hr : o.revision n with
        | error e => simpa [mkError] using hd
        | ok nd =>
          simp only [hr]
          exact ih _ _ _ _ _ _ _ (by rw [List.getLastD_concat])

/-- The loop appends at most `fuel` further rounds. -/
lemma loop_rounds_length_le (o : GenOracles) (threshold : ℚ) :
    ∀ fuel n d ls st uq rds dr,
      (convergenceLoop o threshold fuel n d ls st uq rds dr).rounds.length ≤
        rds.length + fuel := by
  intro fuel
  induction fuel with
  | zero =>
    intro n d ls st uq rds dr
    simp [convergenceLoop, mkSuccess]
  | succ f ih =>
    intro n d ls st uq rds dr
    simp only [convergenceLoop]
    cases hf : o.feedback n with
    | error e => simp [mkError]
    | ok fb =>
      simp only [hf]
      cases hs : evaluateStop threshold fb ls st with
      | stop r => simp [hs, mkSuccess]
      | next ls' st' =>
        simp only [hs]
        cases hr : o.revision n with
        | error e => simp [hr, mkError]
        | ok nd =>
          simp only [hr]
          have := ih (n + 1) nd ls' st' (mergeQuestions uq fb.questions)
            (rds ++ [⟨n, d, fb⟩]) (dr ++ [nd])
          simp at this ⊢
          omega

/-- Round numbering: if the rounds accumulated so far are numbered
`1, ..., roundNum - 1`, the resulting rounds are numbered `1, 2, ...`. -/
lemma loop_rounds_numbering (o : GenOracles) (threshold : ℚ) :
    ∀ fuel n d ls st uq rds dr,
      rds.map (fun rd => rd.roundNum) = List.range' 1 rds.length →
      n = rds.length + 1 →
      (convergenceLoop o threshold fuel n d ls st uq rds dr).rounds.map
          (fun rd => rd.roundNum) =
        List.range' 1 (convergenceLoop o threshold fuel n d ls st uq rds dr).rounds.length := by
  intro fuel
  induction fuel with
  | zero =>
    intro n d ls st uq rds dr hmap hn
    simpa [convergenceLoop, mkSuccess] using hmap
  | succ f ih =>
    intro n d ls st uq rds dr hmap hn
    simp only [convergenceLoop]
    cases hf : o.feedback n with
    | error e => simpa [mkError] using hmap
    | ok fb =>
      simp only [hf]
      have hmap' : (rds ++ [(⟨n, d, fb⟩ : ConvergenceRound)]).map (fun rd => rd.roundNum) =
          List.range' 1 (rds ++ [(⟨n, d, fb⟩ : ConvergenceRound)]).length := by
        rw [List.map_append, hmap, hn]
        simpa using range'_one_concat rds.length
      cases hs : evaluateStop threshold fb ls st with
      | stop r => simpa [hs, mkSuccess] using hmap'
      | next ls' st' =>
        simp only [hs]
        cases hr : o.revision n with
        | error e => simpa [hr, mkError] using hmap'
        | ok nd =>
          simp only [hr]
          refine ih (n + 1) nd ls' st' (mergeQuestions uq fb.questions)
            (rds ++ [⟨n, d, fb⟩]) (dr ++ [nd]) hmap' ?_
          simp [hn]

/-- Unfolding: a valid explicit stop signal decides the round by itself. -/
lemma evaluateStop_of_bind_some {fb : CollaboratorResponse} {r : StopReason}
    (threshold ls : ℚ) (st : ℕ) (hb : fb.stopReason.bind toStopReason = some r) :
    evaluateStop threshold fb ls st = .stop r := by
  unfold evaluateStop
  rw [hb]

/-- Unfolding: without a valid explicit stop signal, the threshold rule and
then the stagnation rule apply. -/
lemma evaluateStop_of_bind_none {fb : CollaboratorResponse}
    (threshold ls : ℚ) (st : ℕ) (hb : fb.stopReason.bind toStopReason = none) :
    evaluateStop threshold fb ls st =
      if threshold ≤ fb.score ∧ fb.ready = true then .stop .THRESHOLD_MET
      else
        if 2 ≤ (if fb.score ≤ ls ∨ fb.noMaterialImprovements = true then st + 1 else 0) ∨
            fb.noMaterialImprovements = true then .stop .NO_IMPROVEMENT
        else .next fb.score
          (if fb.score ≤ ls ∨ fb.noMaterialImprovements = true then st + 1 else 0) := by
  unfold evaluateStop
  rw [hb]

/-- Unfolding: an unknown template id fails before any round. -/
lemma runConvergence_err_template {req : ConvergeRequest} {o : GenOracles} {e : String}
    (ht : getTemplate req.templateId = .error e) :
    runConvergence req o = mkError e "" [] [] [] := by
  unfold runConvergence
  rw [ht]

/-- Unfolding: a failed writer-provider lookup fails before any round. -/
lemma runConvergence_err_writer {req : ConvergeRequest} {o : GenOracles}
    {t : ArtifactTemplate} {e : String} (ht : getTemplate req.templateId = .ok t)
    (hw : getProvider req.writerProvider = .error e) :
    runConvergence req o = mkError e "" [] [] [] := by
  unfold runConvergence
  rw [ht, hw]

/-- Unfolding: a failed collaborator-provider lookup fails before any round. -/
lemma runConvergence_err_collab {req : ConvergeRequest} {o : GenOracles}
    {t : ArtifactTemplate} {u : Unit} {e : String}
    (ht : getTemplate req.templateId = .ok t)
    (hw : getProvider req.writerProvider = .ok u)
    (hc : getProvider req.collaboratorProvider = .error e) :
    runConvergence req o = mkError e "" [] [] [] := by
  unfold runConvergence
  rw [ht, hw, hc]

/-- Unfolding: a failed initial-draft call fails with the empty draft. -/
lemma runConvergence_err_initial {req : ConvergeRequest} {o : GenOracles}
    {t : ArtifactTemplate} {u1 u2 : Unit} {e : String}
    (ht : getTemplate req.templateId = .ok t)
    (hw : getProvider req.writerProvider = .ok u1)
    (hc : getProvider req.collaboratorProvider = .ok u2)
    (hi : o.initialDraft = .error e) :
    runConvergence req o = mkError e "" [] [] [] := by
  unfold runConvergence
  rw [ht, hw, hc, hi]

/-- Unfolding: with template, providers and initial draft resolved, the run
is the loop started at round 1 with `lastScore = 0`, `stallCount = 0` and
the effective policy values. -/
lemma runConvergence_eq_loop {req : ConvergeRequest} {o : GenOracles}
    {t : ArtifactTemplate} {u1 u2 : Unit} {d : String}
    (ht : getTemplate req.templateId = .ok t)
    (hw : getProvider req.writerProvider = .ok u1)
    (hc : getProvider req.collaboratorProvider = .ok u2)
    (hi : o.initialDraft = .ok d) :
    runConvergence req o =
      convergenceLoop o (jsOrRat req.scoreThreshold t.convergencePolicy.scoreThreshold)
        (jsOrNat req.maxRounds t.convergencePolicy.maxRounds) 1 d 0 0 [] [] [d] := by
  unfold runConvergence
  rw [ht, hw, hc, hi]

/-- A `THRESHOLD_MET` verdict comes either from a valid explicit signal
naming it or from the threshold rule itself. -/
lemma evaluateStop_stop_thresholdMet {threshold : ℚ} {fb : CollaboratorResponse}
    {ls : ℚ} {st : ℕ} (h : evaluateStop threshold fb ls st = .stop .THRESHOLD_MET) :
    fb.stopReason.bind toStopReason = some .THRESHOLD_MET ∨
      (fb.stopReason.bind toStopReason = none ∧
        threshold ≤ fb.score ∧ fb.ready = true) := by
  cases hb : fb.stopReason.bind toStopReason with
  | some r =>
    rw [evaluateStop_of_bind_some threshold ls st hb] at h
    simp only [StepDecision.stop.injEq] at h
    subst h
    exact Or.inl rfl
  | none =>
    rw [evaluateStop_of_bind_none threshold ls st hb] at h
    by_cases hc : threshold ≤ fb.score ∧ fb.ready = true
    · exact Or.inr ⟨rfl, hc⟩
    · rw [if_neg hc] at h
      exfalso
      split at h <;> split at h <;> simp at h

/-- Whenever the loop reports `THRESHOLD_MET`, the stopping round is the
last round, and unless it carried a valid explicit stop signal it satisfied
the threshold rule. -/
lemma loop_thresholdMet_last (o : GenOracles) (threshold : ℚ) :
    ∀ fuel n d ls st uq rds dr,
      (convergenceLoop o threshold fuel n d ls st uq rds dr).stopReason = .THRESHOLD_MET →
      ∃ lr, (convergenceLoop o threshold fuel n d ls st uq rds dr).rounds.getLast? = some lr ∧
        (lr.collaboratorFeedback.stopReason.bind toStopReason = none →
          threshold ≤ lr.collaboratorFeedback.score ∧
            lr.collaboratorFeedback.ready = true) := by
  intro fuel
  induction fuel with
  | zero =>
    intro n d ls st uq rds dr h
    simp [convergenceLoop, mkSuccess] at h
  | succ f ih =>
    intro n d ls st uq rds dr h
    simp only [convergenceLoop] at h ⊢
    cases hf : o.feedback n with
    | error e => simp [hf, mkError] at h
    | ok fb =>
      simp only [hf] at h ⊢
      cases hs : evaluateStop threshold fb ls st with
      | stop r =>
        simp only [hs, mkSuccess] at h ⊢
        subst h
        refine ⟨⟨n, d, fb⟩, List.getLast?_concat _, ?_⟩
        intro hb
        rcases evaluateStop_stop_thresholdMet hs with hx | hx
        · rw [hb] at hx; cases hx
        · exact hx.2
      | next ls' st' =>
        simp only [hs] at h ⊢
        cases hr : o.revision n with
        | error e => simp [hr, mkError] at h
        | ok nd =>
          simp only [hr] at h ⊢
          exact ih _ _ _ _ _ _ _ h

/-- Claim C1: `runConvergence` never throws past its boundary: every
failure (unknown template id, provider lookup, any generator call — the
validator's exhaustion surfaces as a failed feedback call) yields a result
with `stopReason = ERROR_FALLBACK` whose rounds are exactly those appended
before the failure and whose final text is the output of the most recently
completed writing step (the empty string when no writing step completed,
since `completedDrafts.getLastD ""` is then `""`). -/
theorem c1_failure_containment (req : ConvergeRequest) (o : GenOracles) :
    ((runConvergence req o).success = false →
      (runConvergence req o).stopReason = .ERROR_FALLBACK) ∧
    (runConvergence req o).final = (runConvergence req o).completedDrafts.getLastD "" ∧
    (∀ e, getTemplate req.templateId = .error e →
      runConvergence req o = mkError e "" [] [] []) ∧
    (∀ threshold fuel n d ls st uq rds dr e, o.feedback n = .error e →
      convergenceLoop o threshold (fuel + 1) n d ls st uq rds dr =
        mkError e d rds uq dr) ∧
    (∀ threshold fuel n d ls st uq rds dr fb ls' st' e, o.feedback n = .ok fb →
      evaluateStop threshold fb ls st = .next ls' st' → o.revision n = .error e →
      convergenceLoop o threshold (fuel + 1) n d ls st uq rds dr =
        mkError e d (rds ++ [⟨n, d, fb⟩]) (mergeQuestions uq fb.questions) dr) := by
  refine ⟨?_, ?_, ?_, ?_, ?_⟩
  · intro h
    unfold runConvergence at h ⊢
    cases hg : getTemplate req.templateId with
    | error e => simp [hg, mkError]
    | ok t =>
      simp only [hg] at h ⊢
      cases hw : getProvider req.writerProvider with
      | error e => simp [hw, mkError]
      | ok u =>
        cases hc : getProvider req.collaboratorProvider with
        | error e => simp [hw, hc, mkError]
        | ok u2 =>
          simp only [hw, hc] at h ⊢
          cases hi : o.initialDraft with
          | error e => simp [hi, mkError]
          | ok d =>
            simp only [hi] at h ⊢
            exact loop_success_false_stopReason _ _ _ _ _ _ _ _ _ _ h
  · unfold runConvergence
    cases hg : getTemplate req.templateId with
    | error e => simp [mkError]
    | ok t =>
      cases hw : getProvider req.writerProvider with
      | error e => simp [mkError]
      | ok u =>
        cases hc : getProvider req.collaboratorProvider with
        | error e => simp [mkError]
        | ok u2 =>
          cases hi : o.initialDraft with
          | error e => simp [mkError]
          | ok d => exact loop_final_eq_lastDraft _ _ _ _ _ _ _ _ _ _ (by simp)
  · intro e he
    unfold runConvergence
    rw [he]
  · intro threshold fuel n d ls st uq rds dr e he
    simp only [convergenceLoop, he]
  · intro threshold fuel n d ls st uq rds dr fb ls' st' e hf hs hr
    simp only [convergenceLoop, hf, hs, hr]

/-- Claim C2: for every session input (whose requested `maxRounds`, when
present, is a positive integer as the data model requires), the result has
at most the effective `maxRounds` rounds — the requested value when
present, else the template's policy value — and the appended rounds are
numbered `1, 2, ...` in order. -/
theorem c2_bounded_rounds (req : ConvergeRequest) (o : GenOracles)
    (t : ArtifactTemplate) (ht : getTemplate req.templateId = .ok t)
    (hpos : ∀ n, req.maxRounds = some n → 0 < n) :
    (runConvergence req o).rounds.length ≤
      req.maxRounds.getD t.convergencePolicy.maxRounds ∧
    (runConvergence req o).rounds.map (fun rd => rd.roundNum) =
      List.range' 1 (runConvergence req o).rounds.length := by
  have heff : jsOrNat req.maxRounds t.convergencePolicy.maxRounds =
      req.maxRounds.getD t.convergencePolicy.maxRounds := by
    cases hm : req.maxRounds with
    | none => rfl
    | some n =>
      have : 0 < n := hpos n hm
      simp [jsOrNat, Nat.pos_iff_ne_zero.mp this]
  unfold runConvergence
  rw [ht]
  cases hw : getProvider req.writerProvider with
  | error e => simp [mkError]
  | ok u =>
    cases hc : getProvider req.collaboratorProvider with
    | error e => simp [mkError]
    | ok u2 =>
      cases hi : o.initialDraft with
      | error e => simp [mkError]
      | ok d =>
        constructor
        · rw [← heff]
          simpa using loop_rounds_length_le o
            (jsOrRat req.scoreThreshold t.convergencePolicy.scoreThreshold)
            (jsOrNat req.maxRounds t.convergencePolicy.maxRounds) 1 d 0 0 [] [] [d]
        · exact loop_rounds_numbering _ _ _ _ _ _ _ _ _ _ (by simp) (by simp)

/-- Claim C3 counterexample: a round-1 feedback carrying an explicit
`"THRESHOLD_MET"` stop signal with score 0 and ready false produces
`stopReason = THRESHOLD_MET` although the effective threshold is 9, so the
claim as stated fails. -/
theorem c3_threshold_cex :
    getTemplate reqEmail.templateId = .ok emailReplyTemplate ∧
    jsOrRat reqEmail.scoreThreshold emailReplyTemplate.convergencePolicy.scoreThreshold = 9 ∧
    (runConvergence reqEmail oExplicitThresh).stopReason = .THRESHOLD_MET ∧
    ((runConvergence reqEmail oExplicitThresh).rounds.getLastD
        defaultRound).collaboratorFeedback.score < 9 ∧
    ((runConvergence reqEmail oExplicitThresh).rounds.getLastD
        defaultRound).collaboratorFeedback.ready = false := by
  refine ⟨by decide, by decide, by decide, ?_, by decide⟩
  decide

/-- Claim C3, amended: if the result's `stopReason` is `THRESHOLD_MET` and
the last round's feedback did not itself carry a valid explicit stop
signal, then that feedback satisfied `score >= effective threshold` and
`ready = true`.  (The explicit-stop escape hatch evaluated first can also
name `THRESHOLD_MET`, which is the only other source of this reason.) -/
theorem c3_threshold_amended (req : ConvergeRequest) (o : GenOracles)
    (t : ArtifactTemplate) (ht : getTemplate req.templateId = .ok t)
    (h : (runConvergence req o).stopReason = .THRESHOLD_MET) :
    ∃ lr, (runConvergence req o).rounds.getLast? = some lr ∧
      (lr.collaboratorFeedback.stopReason.bind toStopReason = none →
        jsOrRat req.scoreThreshold t.convergencePolicy.scoreThreshold ≤
            lr.collaboratorFeedback.score ∧
          lr.collaboratorFeedback.ready = true) := by
  cases hw : getProvider req.writerProvider with
  | error e => rw [runConvergence_err_writer ht hw] at h; simp [mkError] at h
  | ok u =>
    cases hc : getProvider req.collaboratorProvider with
    | error e => rw [runConvergence_err_collab ht hw hc] at h; simp [mkError] at h
    | ok u2 =>
      cases hi : o.initialDraft with
      | error e => rw [runConvergence_err_initial ht hw hc hi] at h; simp [mkError] at h
      | ok d =>
        rw [runConvergence_eq_loop ht hw hc hi] at h ⊢
        exact loop_thresholdMet_last _ _ _ _ _ _ _ _ _ _ h

/-- Claim C4: a feedback whose explicit stop signal names one of the four
canonical reasons stops the loop in that round with exactly that reason,
whatever the score, readiness or stagnation state; a signal naming any
other string is ignored and evaluation falls through to the normal stop
logic; concretely, an explicit `NO_IMPROVEMENT` on round 1 wins despite
score 9 and ready true. -/
theorem c4_explicit_stop :
    (∀ (o : GenOracles) (threshold : ℚ) fuel n d ls st uq rds dr fb r,
      o.feedback n = .ok fb → fb.stopReason.bind toStopReason = some r →
      convergenceLoop o threshold (fuel + 1) n d ls st uq rds dr =
        mkSuccess d r (rds ++ [⟨n, d, fb⟩]) (mergeQuestions uq fb.questions) dr) ∧
    (∀ (threshold : ℚ) (fb : CollaboratorResponse) (s : String) (ls : ℚ) (st : ℕ),
      toStopReason s = none →
      evaluateStop threshold { fb with stopReason := some s } ls st =
        evaluateStop threshold { fb with stopReason := none } ls st) ∧
    ((runConvergence reqEmail oExplicitNoImp).stopReason = .NO_IMPROVEMENT ∧
      (runConvergence reqEmail oExplicitNoImp).rounds.length = 1) := by
  refine ⟨?_, ?_, by decide, by decide⟩
  · intro o threshold fuel n d ls st uq rds dr fb r hf hb
    simp only [convergenceLoop, hf, evaluateStop_of_bind_some threshold ls st hb]
  · intro threshold fb s ls st hs
    unfold evaluateStop
    simp [hs]

/-- Claim C5: under the stagnation rule (reached when no explicit stop and
the threshold rule does not fire), the stall counter is incremented exactly
when `score <= lastScore` or `noMaterialImprovements`, reset to 0
otherwise; the round stops with `NO_IMPROVEMENT` exactly when the updated
counter reaches 2 or `noMaterialImprovements` holds, and otherwise the loop
continues with `lastScore = score`.  With `lastScore` starting at 0, a
first-round score of exactly 0 already increments the counter.  Feedback
scores 5, 5, 5 (never ready, no improvement flag) stop with
`NO_IMPROVEMENT` in round 3. -/
theorem c5_stagnation :
    (∀ (threshold : ℚ) (fb : CollaboratorResponse) (ls : ℚ) (st : ℕ),
      fb.stopReason.bind toStopReason = none →
      ¬(threshold ≤ fb.score ∧ fb.ready = true) →
      ((evaluateStop threshold fb ls st = .stop .NO_IMPROVEMENT ↔
        2 ≤ (if fb.score ≤ ls ∨ fb.noMaterialImprovements = true then st + 1 else 0) ∨
          fb.noMaterialImprovements = true) ∧
      (¬(2 ≤ (if fb.score ≤ ls ∨ fb.noMaterialImprovements = true then st + 1 else 0) ∨
          fb.noMaterialImprovements = true) →
        evaluateStop threshold fb ls st = .next fb.score
          (if fb.score ≤ ls ∨ fb.noMaterialImprovements = true then st + 1 else 0)))) ∧
    (∀ (threshold : ℚ) (fb : CollaboratorResponse),
      fb.stopReason.bind toStopReason = none →
      ¬(threshold ≤ fb.score ∧ fb.ready = true) → fb.score = 0 →
      fb.noMaterialImprovements = false →
      evaluateStop threshold fb 0 0 = .next 0 1) ∧
    ((runConvergence reqEmail oStall).stopReason = .NO_IMPROVEMENT ∧
      (runConvergence reqEmail oStall).rounds.length = 3) := by
  refine ⟨?_, ?_, by decide, by decide⟩
  · intro threshold fb ls st hb hc
    rw [evaluateStop_of_bind_none threshold ls st hb, if_neg hc]
    constructor
    · constructor
      · intro h
        by_contra hcond
        rw [if_neg hcond] at h
        exact StepDecision.noConfusion h
      · intro hcond
        rw [if_pos hcond]
    · intro hcond
      rw [if_neg hcond]
  · intro threshold fb hb hc h0 hm
    rw [evaluateStop_of_bind_none threshold 0 0 hb, if_neg hc, h0, hm]
    norm_num

/-- For interpolated round indices (2 or larger, at most `maxRounds`), the
scheduler output lies between the floor 0.3 and the mid value 0.55. -/
lemma writerTemperature_interp_bounds (m i : ℕ) (h2 : 2 ≤ i) (hm : i ≤ m) :
    3/10 ≤ writerTemperature i m ∧ writerTemperature i m ≤ 11/20 := by
  unfold writerTemperature
  rw [if_neg (by omega : ¬ i ≤ 1)]
  set t : ℚ := max 0 (((i : ℚ) - 2) / max 1 ((m : ℚ) - 2)) with ht
  have ht0 : 0 ≤ t := le_max_left _ _
  have hmaxpos : (0 : ℚ) < max 1 ((m : ℚ) - 2) :=
    lt_of_lt_of_le zero_lt_one (le_max_left _ _)
  have ht1 : t ≤ 1 := by
    rw [ht]
    apply max_le zero_le_one
    rw [div_le_one hmaxpos]
    have him : (i : ℚ) ≤ (m : ℚ) := by exact_mod_cast hm
    calc (i : ℚ) - 2 ≤ (m : ℚ) - 2 := by linarith
    _ ≤ max 1 ((m : ℚ) - 2) := le_max_right _ _
  have harg : (55/100 - t * (25/100)) * 100 = 55 - 25 * t := by ring
  rw [harg]
  have h30 : (30 : ℤ) ≤ round ((55 : ℚ) - 25 * t) := by
    rw [round_eq, Int.le_floor]
    push_cast
    linarith
  have h55 : round ((55 : ℚ) - 25 * t) ≤ 55 := by
    rw [round_eq]
    have : ⌊(55 : ℚ) - 25 * t + 1/2⌋ < 56 := by
      rw [Int.floor_lt]
      push_cast
      linarith
    omega
  have hc30 : (30 : ℚ) ≤ ((round ((55 : ℚ) - 25 * t) : ℤ) : ℚ) := by exact_mod_cast h30
  have hc55 : ((round ((55 : ℚ) - 25 * t) : ℤ) : ℚ) ≤ 55 := by exact_mod_cast h55
  constructor <;> [linarith; linarith]

/-- Claim C7 counterexample: at round index 1 the scheduler returns the
maximum 0.7, not a value interpolated downward from the mid value 0.55, so
the claim as stated fails at `roundIndex = 1`, `maxRounds = 5`. -/
theorem c7_temperature_cex :
    writerTemperature 1 5 = 7/10 ∧ ¬ writerTemperature 1 5 ≤ 11/20 := by
  have h : writerTemperature 1 5 = 7/10 := by
    unfold writerTemperature
    rw [if_pos (by norm_num : (1 : ℕ) ≤ 1)]
  exact ⟨h, by rw [h]; norm_num⟩

/-- Claim C7, amended: the scheduler returns the maximum 0.7 at round
indices 0 and 1 (round 1's revision still uses the creative maximum); for
indices ≥ 2 it interpolates from 0.55 at index 2 down to the floor 0.3 at
`maxRounds` (for `maxRounds ≥ 3`), staying within [0.3, 0.55]; and for all
`0 ≤ roundIndex ≤ maxRounds` the value lies in the bounded range
[0.3, 0.7]. -/
theorem c7_temperature_amended :
    (∀ m : ℕ, writerTemperature 0 m = 7/10 ∧ writerTemperature 1 m = 7/10) ∧
    (∀ m : ℕ, writerTemperature 2 m = 11/20) ∧
    (∀ m : ℕ, 3 ≤ m → writerTemperature m m = 3/10) ∧
    (∀ m i : ℕ, 2 ≤ i → i ≤ m →
      3/10 ≤ writerTemperature i m ∧ writerTemperature i m ≤ 11/20) ∧
    (∀ m i : ℕ, i ≤ m →
      3/10 ≤ writerTemperature i m ∧ writerTemperature i m ≤ 7/10) := by
  refine ⟨?_, ?_, ?_, fun m i => writerTemperature_interp_bounds m i, ?_⟩
  · intro m
    constructor <;> simp [writerTemperature]
  · intro m
    unfold writerTemperature
    rw [if_neg (by norm_num : ¬ (2 : ℕ) ≤ 1)]
    have h0 : max 0 ((((2 : ℕ) : ℚ) - 2) / max 1 ((m : ℚ) - 2)) = 0 := by norm_num
    rw [h0]
    have h1 : ((55 : ℚ)/100 - 0 * (25/100)) * 100 = ((55 : ℤ) : ℚ) := by norm_num
    rw [h1, round_intCast]
    norm_num
  · intro m h3
    unfold writerTemperature
    rw [if_neg (by omega : ¬ m ≤ 1)]
    have hm2 : (1 : ℚ) ≤ (m : ℚ) - 2 := by
      have : (3 : ℚ) ≤ (m : ℚ) := by exact_mod_cast h3
      linarith
    have hne : (m : ℚ) - 2 ≠ 0 := by linarith
    rw [max_eq_right hm2, div_self hne]
    have hmax1 : max (0 : ℚ) 1 = 1 := by norm_num
    rw [hmax1]
    have h1 : ((55 : ℚ)/100 - 1 * (25/100)) * 100 = ((30 : ℤ) : ℚ) := by norm_num
    rw [h1, round_intCast]
    norm_num
  · intro m i him
    by_cases hi : i ≤ 1
    · unfold writerTemperature
      rw [if_pos hi]
      norm_num
    · have hb := writerTemperature_interp_bounds m i (by omega) him
      exact ⟨hb.1, by linarith [hb.2]⟩

/-- Claim C6 (code bug): feeding a single round whose feedback lists the
same question text twice produces a duplicated entry in the accumulated
unresolved-question list — the deduplication set is built once per round
and not updated while the round's questions are pushed — contradicting the
code's own "deduplicate" comment and the spec's P4. -/
theorem c6_duplicate_questions :
    mergeQuestions [] ["Q1", "Q1"] = ["Q1", "Q1"] ∧
    (runConvergence reqEmail oDupQ).unresolvedQuestions = ["Q1", "Q1"] ∧
    ¬ (runConvergence reqEmail oDupQ).unresolvedQuestions.Nodup := by
  refine ⟨by decide, by decide, ?_⟩
  decide

/-- Witness for C1: a concrete run whose round-1 feedback call throws. -/
theorem c1_failure_containment_witness :
    (runConvergence reqEmail oFail).stopReason = .ERROR_FALLBACK ∧
    convergenceLoop oFail 9 3 1 "draft0" 0 0 [] [] ["draft0"] =
      mkError "network down" "draft0" [] [] ["draft0"] := by
  constructor
  · exact (c1_failure_containment reqEmail oFail).1 (by decide)
  · exact (c1_failure_containment reqEmail oFail).2.2.2.1 9 2 1 "draft0" 0 0
      [] [] ["draft0"] "network down" (by decide)

/-- Witness for C2: the stalling run on the email-reply template stays
within its 3-round cap with rounds numbered in order. -/
theorem c2_bounded_rounds_witness :
    (runConvergence reqEmail oStall).rounds.length ≤ 3 ∧
    (runConvergence reqEmail oStall).rounds.map (fun rd => rd.roundNum) =
      List.range' 1 (runConvergence reqEmail oStall).rounds.length := by
  have h := c2_bounded_rounds reqEmail oStall emailReplyTemplate (by rfl)
    (fun n hn => by simp [reqEmail] at hn)
  exact h

/-- Witness for C3 (amended): a run stopping through the threshold rule has
a last round with score at least the effective threshold and ready true. -/
theorem c3_threshold_amended_witness :
    ((runConvergence reqEmail oThresh).rounds.getLastD
        defaultRound).collaboratorFeedback.stopReason.bind toStopReason = none ∧
    jsOrRat reqEmail.scoreThreshold emailReplyTemplate.convergencePolicy.scoreThreshold ≤
      ((runConvergence reqEmail oThresh).rounds.getLastD
        defaultRound).collaboratorFeedback.score ∧
    ((runConvergence reqEmail oThresh).rounds.getLastD
        defaultRound).collaboratorFeedback.ready = true := by
  obtain ⟨lr, hlr, himp⟩ :=
    c3_threshold_amended reqEmail oThresh emailReplyTemplate (by rfl) (by decide)
  have hconc : (runConvergence reqEmail oThresh).rounds.getLast? =
      some ⟨1, "d0", mkFeedback 9 true [] false none⟩ := by decide
  rw [hlr] at hconc
  have hval : lr = ⟨1, "d0", mkFeedback 9 true [] false none⟩ :=
    Option.some.inj hconc
  subst hval
  have h2 := himp (by decide)
  have hD : (runConvergence reqEmail oThresh).rounds.getLastD defaultRound =
      (⟨1, "d0", mkFeedback 9 true [] false none⟩ : ConvergenceRound) := by decide
  rw [hD]
  exact ⟨by decide, h2.1, h2.2⟩

/-- Witness for C4: the explicit NO_IMPROVEMENT signal stops round 1 even
with score 9 and ready true. -/
theorem c4_explicit_stop_witness :
    convergenceLoop oExplicitNoImp 9 3 1 "d0" 0 0 [] [] ["d0"] =
      mkSuccess "d0" .NO_IMPROVEMENT
        [⟨1, "d0", mkFeedback 9 true [] false (some "NO_IMPROVEMENT")⟩] [] ["d0"] := by
  have h := c4_explicit_stop.1 oExplicitNoImp 9 2 1 "d0" 0 0 [] [] ["d0"]
    (mkFeedback 9 true [] false (some "NO_IMPROVEMENT")) .NO_IMPROVEMENT
    (by decide) (by decide)
  simpa using h

/-- Witness for C5: with scores 5,5 the second stall stops the round, and a
first-round score of 0 against the initial lastScore 0 already counts as a
stall. -/
theorem c5_stagnation_witness :
    evaluateStop 9 (mkFeedback 5 false [] false none) 5 1 = .stop .NO_IMPROVEMENT ∧
    evaluateStop 9 (mkFeedback 0 false [] false none) 0 0 = .next 0 1 := by
  constructor
  · exact ((c5_stagnation.1 9 (mkFeedback 5 false [] false none) 5 1
      (by decide) (by decide)).1).mpr (by decide)
  · exact c5_stagnation.2.1 9 (mkFeedback 0 false [] false none)
      (by decide) (by decide) (by decide) (by decide)

/-- The retry loop makes at most `fuel` generation calls. -/
lemma varLoop_calls_le {J T : Type} (gen : ℕ → Except String (List Char))
    (jp : List Char → Except String J) (sp : J → Except String T) (maxRetries : ℕ) :
    ∀ fuel attempt le, (varLoop gen jp sp maxRetries fuel attempt le).2 ≤ fuel := by
  intro fuel
  induction fuel with
  | zero => intro attempt le; simp [varLoop]
  | succ f ih =>
    intro attempt le
    simp only [varLoop]
    cases ha : attemptRun gen jp sp attempt with
    | ok v => simp
    | error e =>
      have := ih (attempt + 1) (some e)
      simpa using this

/-- If the attempts before `k` fail and attempt `k` succeeds, the loop
returns attempt `k`'s value after exactly `k - attempt + 1` calls. -/
lemma varLoop_first_success {J T : Type} (gen : ℕ → Except String (List Char))
    (jp : List Char → Except String J) (sp : J → Except String T) (maxRetries : ℕ) :
    ∀ fuel attempt le k v, attempt ≤ k → k < attempt + fuel →
      (∀ i, attempt ≤ i → i < k → ∃ e, attemptRun gen jp sp i = .error e) →
      attemptRun gen jp sp k = .ok v →
      varLoop gen jp sp maxRetries fuel attempt le = (.ok v, k - attempt + 1) := by
  intro fuel
  induction fuel with
  | zero => intro attempt le k v h1 h2 _ _; omega
  | succ f ih =>
    intro attempt le k v h1 h2 herr hok
    by_cases hk : attempt = k
    · subst hk
      simp only [varLoop, hok]
      simp
    · obtain ⟨e, he⟩ := herr attempt (le_refl _) (by omega)
      simp only [varLoop, he]
      have hrec := ih (attempt + 1) (some e) k v (by omega) (by omega)
        (fun i hi1 hi2 => herr i (by omega) hi2) hok
      rw [hrec]
      simp only [Prod.mk.injEq]
      exact ⟨by trivial, by omega⟩

/-- If every attempt the fuel permits fails, the loop fails with the final
error embedding the last attempt's message, after exactly `fuel` calls. -/
lemma varLoop_all_fail {J T : Type} (gen : ℕ → Except String (List Char))
    (jp : List Char → Except String J) (sp : J → Except String T) (maxRetries : ℕ) :
    ∀ fuel attempt le, 0 < fuel →
      (∀ i, attempt ≤ i → i < attempt + fuel → ∃ e, attemptRun gen jp sp i = .error e) →
      ∃ e, attemptRun gen jp sp (attempt + fuel - 1) = .error e ∧
        varLoop gen jp sp maxRetries fuel attempt le =
          (.error (finalError maxRetries (some e)), fuel) := by
  intro fuel
  induction fuel with
  | zero => intro attempt le h0; omega
  | succ f ih =>
    intro attempt le _ herr
    obtain ⟨e0, he0⟩ := herr attempt (le_refl _) (by omega)
    by_cases hf : f = 0
    · subst hf
      refine ⟨e0, by simpa using he0, ?_⟩
      simp only [varLoop, he0]
    · have hfpos : 0 < f := Nat.pos_of_ne_zero hf
      obtain ⟨e, he, hvl⟩ := ih (attempt + 1) (some e0) hfpos
        (fun i hi1 hi2 => herr i (by omega) (by omega))
      refine ⟨e, ?_, ?_⟩
      · have hidx : attempt + 1 + f - 1 = attempt + (f + 1) - 1 := by omega
        rw [← hidx]
        exact he
      · simp only [varLoop, he0]
        rw [hvl]

/-- Claim C8: the validator makes at most `maxRetries + 1` generation
calls; it returns the first attempt's value that parses and validates
(each attempt being a fresh generation, indexed by its attempt number);
and it fails — with an error embedding the last attempt's message — exactly
when all `maxRetries + 1` attempts fail. -/
theorem c8_validator_retry {J T : Type} (gen : ℕ → Except String (List Char))
    (jp : List Char → Except String J) (sp : J → Except String T) (maxRetries : ℕ) :
    (validateAndRetry gen jp sp maxRetries).2 ≤ maxRetries + 1 ∧
    (∀ k v, k ≤ maxRetries →
      (∀ i, i < k → ∃ e, attemptRun gen jp sp i = .error e) →
      attemptRun gen jp sp k = .ok v →
      validateAndRetry gen jp sp maxRetries = (.ok v, k + 1)) ∧
    ((∀ i, i ≤ maxRetries → ∃ e, attemptRun gen jp sp i = .error e) →
      ∃ e, attemptRun gen jp sp maxRetries = .error e ∧
        validateAndRetry gen jp sp maxRetries =
          (.error (finalError maxRetries (some e)), maxRetries + 1)) := by
  refine ⟨varLoop_calls_le gen jp sp maxRetries (maxRetries + 1) 0 none, ?_, ?_⟩
  · intro k v hk herr hok
    have h := varLoop_first_success gen jp sp maxRetries (maxRetries + 1) 0 none k v
      (Nat.zero_le k) (by omega) (fun i _ hi => herr i hi) hok
    simpa using h
  · intro herr
    have h := varLoop_all_fail gen jp sp maxRetries (maxRetries + 1) 0 none
      (by omega) (fun i _ hi => herr i (by omega))
    simpa using h

/-- Witness for C8: attempt 0 yields unparsable text, attempt 1 yields a
valid quoted string; the validator succeeds on attempt 1 after 2 calls. -/
theorem c8_validator_retry_witness :
    validateAndRetry genRetryW jsonParseStr Except.ok 1 = (.ok ['o', 'k'], 2) := by
  refine (c8_validator_retry genRetryW jsonParseStr Except.ok 1).2.1 1 ['o', 'k']
    (le_refl 1) (fun i hi => ?_) (by decide)
  have h0 : i = 0 := by omega
  subst h0
  exact ⟨"Unexpected token in JSON", by decide⟩

/-- Claim C10: every provider adapter's `generateJson` calls the shared
validator without a `maxRetries` argument, so the default bound 1 applies:
at most 2 generation calls, and when both attempts fail the validation
error is raised to the caller after exactly 2 attempts. -/
theorem c10_adapter_default_retries {J T : Type} (gen : ℕ → Except String (List Char))
    (jp : List Char → Except String J) (sp : J → Except String T) :
    (openAIGenerateJson gen jp sp).2 ≤ 2 ∧
    (anthropicGenerateJson gen jp sp).2 ≤ 2 ∧
    (googleGenerateJson gen jp sp).2 ≤ 2 ∧
    ((∀ i, i ≤ 1 → ∃ e, attemptRun gen jp sp i = .error e) →
      ∃ e, attemptRun gen jp sp 1 = .error e ∧
        openAIGenerateJson gen jp sp =
          (.error (finalError 1 (some e)), 2)) := by
  refine ⟨varLoop_calls_le gen jp sp 1 2 0 none,
    varLoop_calls_le gen jp sp 1 2 0 none,
    varLoop_calls_le _ jp sp 1 2 0 none, ?_⟩
  intro herr
  obtain ⟨e, he, hv⟩ := varLoop_all_fail gen jp sp 1 2 0 none (by omega)
    (fun i _ hi => herr i (by omega))
  exact ⟨e, he, hv⟩

/-- Witness for C10: a generator that always yields unparsable text makes
the adapter call fail after exactly 2 attempts. -/
theorem c10_adapter_default_retries_witness :
    openAIGenerateJson genFailW jsonParseStr (Except.ok (α := List Char)) =
      (.error (finalError 1 (some "Unexpected token in JSON")), 2) := by
  obtain ⟨e, he, hv⟩ :=
    (c10_adapter_default_retries genFailW jsonParseStr Except.ok).2.2.2
      (fun i hi => ⟨"Unexpected token in JSON", by
        have h01 : i = 0 ∨ i = 1 := by omega
        rcases h01 with h | h <;> subst h <;> decide⟩)
  have hc : attemptRun genFailW jsonParseStr (Except.ok (α := List Char)) 1 =
      .error "Unexpected token in JSON" := by decide
  rw [hc] at he
  rw [← Except.error.inj he] at hv
  exact hv

/-- Boolean prefix test against the prefix order (alias kept local). -/
lemma isPrefixOf_true_iff {l₁ l₂ : List Char} : l₁.isPrefixOf l₂ = true ↔ l₁ <+: l₂ := by
  exact List.isPrefixOf_iff_prefix

/-- A take is a prefix (alias kept local). -/
lemma take_isPrefixOf_self (n : ℕ) (l : List Char) : l.take n <+: l := by
  exact List.take_prefix n l

/-- Searching for `sep` at its own occurrence returns the suffix after it. -/
lemma afterFirstOcc_append_self (sep r : List Char) (hsep : sep ≠ []) :
    afterFirstOcc sep (sep ++ r) = some r := by
  cases sep with
  | nil => exact absurd rfl hsep
  | cons c t =>
    have hcons : (c :: t) ++ r = c :: (t ++ r) := List.cons_append c t r
    have hpre : (c :: t).isPrefixOf (c :: (t ++ r)) = true := by
      rw [← hcons]
      exact isPrefixOf_true_iff.mpr (List.prefix_append _ _)
    rw [hcons, afterFirstOcc, if_pos hpre, ← hcons, List.drop_left]

/-- JavaScript `includes` is infix occurrence. -/
lemma afterFirstOcc_isSome_iff (sep : List Char) (hsep : sep ≠ []) :
    ∀ s, (afterFirstOcc sep s).isSome = true ↔ sep <:+: s := by
  intro s
  induction s with
  | nil =>
    have h : sep.isPrefixOf ([] : List Char) = false := by
      cases sep with
      | nil => exact absurd rfl hsep
      | cons c t => rfl
    simp [afterFirstOcc, h, List.infix_nil, hsep]
  | cons c t ih =>
    by_cases hp : sep.isPrefixOf (c :: t) = true
    · simp only [afterFirstOcc, hp, if_true, Option.isSome_some, true_iff]
      exact List.infix_cons_iff.mpr (Or.inl (isPrefixOf_true_iff.mp hp))
    · have hp' : sep.isPrefixOf (c :: t) = false := Bool.eq_false_iff.mpr hp
      rw [afterFirstOcc, if_neg (by simp [hp']), ih, List.infix_cons_iff]
      constructor
      · exact Or.inr
      · intro h
        rcases h with h | h
        · exact absurd (isPrefixOf_true_iff.mpr h) (by simp [hp'])
        · exact h

/-- If `sep` never occurs starting inside `u`, the before-first-occurrence
prefix of `u ++ sep ++ w` is exactly `u`. -/
lemma beforeFirstOcc_append (sep : List Char) :
    ∀ u w, (∀ u₂, u₂ ≠ [] → u₂ <:+ u →
        ¬ sep.isPrefixOf (u₂ ++ sep ++ w) = true) →
      beforeFirstOcc sep (u ++ sep ++ w) = u := by
  intro u
  induction u with
  | nil =>
    intro w h
    simp only [List.nil_append]
    cases hsw : sep ++ w with
    | nil => rfl
    | cons c t =>
      have hpre : sep.isPrefixOf (c :: t) = true := by
        rw [← hsw]
        exact isPrefixOf_true_iff.mpr (List.prefix_append _ _)
      rw [beforeFirstOcc, if_pos hpre]
  | cons a u' ih =>
    intro w h
    have hnp : ¬ sep.isPrefixOf ((a :: u') ++ sep ++ w) = true :=
      h (a :: u') (by simp) (List.suffix_refl _)
    have hcons : (a :: u') ++ sep ++ w = a :: (u' ++ sep ++ w) := by simp
    rw [hcons, beforeFirstOcc, if_neg (by rw [← hcons]; exact hnp),
      ih w (fun u₂ hne hsuf => h u₂ hne (hsuf.trans (List.suffix_cons a u')))]

/-- The last element of a list is the last element of any nonempty suffix. -/
lemma IsSuffix_getLast? {u₂ u : List Char} (h : u₂ <:+ u) (hne : u₂ ≠ []) :
    u.getLast? = u₂.getLast? := by
  obtain ⟨p, hp⟩ := h
  rw [← hp, List.getLast?_append]
  have hs : u₂.getLast?.isSome = true := List.getLast?_isSome.mpr hne
  cases hg : u₂.getLast? with
  | none => rw [hg] at hs; cases hs
  | some a => rfl

/-- A fence marker occurring in the newline-wrapped text occurs in the text
itself: the wrapping newlines cannot take part in a three-backtick run. -/
lemma fence_infix_unwrap {txt : List Char}
    (h : fenceChars <:+: ('\n' :: (txt ++ ['\n']))) : fenceChars <:+: txt := by
  obtain ⟨s, t, hst⟩ := h
  cases s with
  | nil =>
    exfalso
    simp only [List.nil_append] at hst
    have hhd : bt = '\n' := by
      have hh := congrArg List.head? hst
      simpa [fenceChars] using hh
    exact absurd hhd (by decide)
  | cons a s' =>
    have hst' : s' ++ fenceChars ++ t = txt ++ ['\n'] := by
      have h2 := hst
      simp only [List.cons_append, List.append_assoc] at h2
      injection h2 with h3 h4
      simpa [List.append_assoc] using h4
    by_cases htn : t = []
    · exfalso
      subst htn
      rw [List.append_nil] at hst'
      have h1 := congrArg List.getLast? hst'
      rw [List.getLast?_append, List.getLast?_concat] at h1
      have : bt = '\n' := by
        simpa [fenceChars] using h1
      exact absurd this (by decide)
    · have hdl : t.dropLast ++ [t.getLast htn] = t := List.dropLast_append_getLast htn
      rw [← hdl] at hst'
      have hassoc : s' ++ fenceChars ++ (t.dropLast ++ [t.getLast htn]) =
          (s' ++ fenceChars ++ t.dropLast) ++ [t.getLast htn] := by
        simp [List.append_assoc]
      rw [hassoc] at hst'
      have hlast : t.getLast htn = '\n' := by
        have hh := congrArg List.getLast? hst'
        rw [List.getLast?_concat, List.getLast?_concat] at hh
        exact Option.some.inj hh
      rw [hlast] at hst'
      exact ⟨s', t.dropLast, List.append_cancel_right hst'⟩

/-- If the text is fence-free, no nonempty suffix of the newline-wrapped
text starts a fence marker before the closing fence itself. -/
lemma no_early_fence {txt : List Char} (h : ¬ fenceChars <:+: txt) :
    ∀ u₂, u₂ ≠ [] → u₂ <:+ ('\n' :: (txt ++ ['\n'])) →
      ¬ fenceChars.isPrefixOf (u₂ ++ fenceChars ++ []) = true := by
  intro u₂ hne hsuf hb
  rw [List.append_nil] at hb
  have hpre : fenceChars <+: u₂ ++ fenceChars := isPrefixOf_true_iff.mp hb
  by_cases hlen : 3 ≤ u₂.length
  · have htake : fenceChars = (u₂ ++ fenceChars).take 3 := by
      have h1 := List.prefix_iff_eq_take.mp hpre
      simpa [fenceChars] using h1
    rw [List.take_append_of_le_length hlen] at htake
    have hpre2 : fenceChars <+: u₂ := htake ▸ take_isPrefixOf_self 3 u₂
    exact h (fence_infix_unwrap ((hpre2.isInfix).trans hsuf.isInfix))
  · push_neg at hlen
    have htake : fenceChars = u₂ ++ fenceChars.take (3 - u₂.length) := by
      have h1 := List.prefix_iff_eq_take.mp hpre
      rw [List.take_append_eq_append_take] at h1
      rw [List.take_of_length_le (by simp [fenceChars] at h1 ⊢; omega)] at h1
      simpa [fenceChars] using h1
    have hmem : ∀ x ∈ u₂, x = bt := by
      intro x hx
      have hxmem : x ∈ fenceChars := htake ▸ List.mem_append_left _ hx
      have : x = bt ∨ x = bt ∨ x = bt := by simpa [fenceChars] using hxmem
      tauto
    have hlbt : u₂.getLast hne = bt := hmem _ (List.getLast_mem hne)
    have hglast : ('\n' :: (txt ++ ['\n'])).getLast? = u₂.getLast? :=
      IsSuffix_getLast? hsuf hne
    have hl1 : ('\n' :: (txt ++ ['\n'])).getLast? = some '\n' := by
      rw [show ('\n' :: (txt ++ ['\n'])) = ('\n' :: txt) ++ ['\n'] from by simp]
      exact List.getLast?_concat _
    rw [hl1, List.getLast?_eq_getLast u₂ hne, hlbt] at hglast
    exact absurd (Option.some.inj hglast) (by decide)

/-- A trim-fixed list loses nothing to `dropWhile` at either end. -/
lemma trim_eq_self_parts (l : List Char) (h : trimChars l = l) :
    l.dropWhile isWs = l ∧ l.reverse.dropWhile isWs = l.reverse := by
  have hsuf1 : l.dropWhile isWs <:+ l := List.dropWhile_suffix _
  have hlen1 : (l.dropWhile isWs).length ≤ l.length := hsuf1.length_le
  have hlen2 : ((l.dropWhile isWs).reverse.dropWhile isWs).length ≤
      (l.dropWhile isWs).length := by
    simpa using (List.dropWhile_suffix (l := (l.dropWhile isWs).reverse) isWs).length_le
  have hlen3 : (trimChars l).length =
      ((l.dropWhile isWs).reverse.dropWhile isWs).length := by
    simp [trimChars]
  rw [h] at hlen3
  have hd1 : l.dropWhile isWs = l := hsuf1.eq_of_length (by omega)
  refine ⟨hd1, ?_⟩
  unfold trimChars at h
  rw [hd1] at h
  have h2 := congrArg List.reverse h
  simpa using h2

/-- Trimming the newline-wrapped text recovers a trim-fixed text. -/
lemma trimChars_wrap (txt : List Char) (h : trimChars txt = txt) :
    trimChars ('\n' :: (txt ++ ['\n'])) = txt := by
  obtain ⟨hfront, hback⟩ := trim_eq_self_parts txt h
  cases txt with
  | nil => decide
  | cons c t =>
    have hc : isWs c = false := by
      rw [List.dropWhile_cons] at hfront
      by_cases hw : isWs c = true
      · rw [if_pos hw] at hfront
        have hle := (List.dropWhile_suffix (l := t) isWs).length_le
        rw [hfront] at hle
        simp at hle
      · simpa using hw
    unfold trimChars
    have h1 : List.dropWhile isWs ('\n' :: ((c :: t) ++ ['\n'])) =
        (c :: t) ++ ['\n'] := by
      rw [List.dropWhile_cons]
      have hnl : isWs '\n' = true := by decide
      rw [if_pos hnl, List.cons_append, List.dropWhile_cons, if_neg (by simp [hc])]
    rw [h1, List.reverse_append]
    have h2 : List.dropWhile isWs (['\n'].reverse ++ (c :: t).reverse) =
        (c :: t).reverse := by
      have hnl : isWs '\n' = true := by decide
      simp only [List.reverse_cons, List.reverse_nil, List.nil_append,
        List.singleton_append, List.dropWhile_cons, hnl, if_true]
      simpa using hback
    rw [h2]
    simp

/-- Stripping the fences from the wrapped text recovers a fence-free,
trim-fixed text. -/
lemma stripFences_wrap (txt : List Char) (hfence : containsSub fenceChars txt = false)
    (htrim : trimChars txt = txt) :
    stripFences (wrapJsonFence txt) = txt := by
  have hrest : afterFirstOcc jsonFenceChars (wrapJsonFence txt) =
      some ('\n' :: (txt ++ '\n' :: fenceChars)) := by
    unfold wrapJsonFence
    exact afterFirstOcc_append_self _ _ (by decide)
  have hcontains : containsSub jsonFenceChars (wrapJsonFence txt) = true := by
    unfold containsSub
    rw [hrest]
    rfl
  have hninf : ¬ fenceChars <:+: txt := by
    intro hi
    have hsome := (afterFirstOcc_isSome_iff fenceChars (by decide) txt).mpr hi
    unfold containsSub at hfence
    rw [hsome] at hfence
    cases hfence
  unfold stripFences
  rw [if_pos hcontains, hrest]
  simp only [Option.getD_some]
  have hsplit : ('\n' :: (txt ++ '\n' :: fenceChars)) =
      ('\n' :: (txt ++ ['\n'])) ++ fenceChars ++ [] := by simp
  rw [hsplit, beforeFirstOcc_append fenceChars ('\n' :: (txt ++ ['\n'])) []
    (no_early_fence hninf)]
  exact trimChars_wrap txt htrim

/-- When the cleaned text parses and validates directly, the attempt
succeeds on the direct branch. -/
lemma parseAttempt_of_direct_ok {J T : Type} {jp : List Char → Except String J}
    {sp : J → Except String T} {content : List Char} {v : T}
    (h : (jp (stripFences content)).bind sp = Except.ok v) :
    parseAttempt jp sp content = .ok v := by
  simp [parseAttempt, h]

/-- Claim C9 counterexample: the payload string a```b is valid for the
target schema (the modelled JSON library round-trips it), yet wrapping its
serialization in a ```json fence and feeding it through the validator does
not return the payload — the fence-stripping split cuts the text at the
backtick run inside the JSON string, both attempts fail, and the validator
raises after consuming the retry. -/
theorem c9_roundtrip_cex :
    jsonParseStr (jsonStringifyStr payloadCEx) = .ok payloadCEx ∧
    containsSub fenceChars payloadCEx = true ∧
    (validateAndRetry (fun _ => .ok (wrapJsonFence (jsonStringifyStr payloadCEx)))
        jsonParseStr Except.ok 1).1 ≠ .ok payloadCEx ∧
    (validateAndRetry (fun _ => .ok (wrapJsonFence (jsonStringifyStr payloadCEx)))
        jsonParseStr Except.ok 1).2 = 2 := by
  refine ⟨by decide, by decide, by decide, ?_⟩
  decide

/-- Claim C9, amended: for any payload whose serialized text contains no
three-backtick fence marker (and no leading/trailing whitespace), wrapping
the serialization in a single ```json fence and feeding it through the
validator parses it on the first attempt, without consuming a retry, to
the schema-validated value — for any JSON parser `jp` and schema `sp` that
accept the serialized text. -/
theorem c9_roundtrip_amended {J T : Type} (jp : List Char → Except String J)
    (sp : J → Except String T) (gen : ℕ → Except String (List Char))
    (txt : List Char) (j : J) (v : T) (n : ℕ)
    (hgen : gen 0 = .ok (wrapJsonFence txt))
    (hfence : containsSub fenceChars txt = false)
    (htrim : trimChars txt = txt)
    (hjp : jp txt = .ok j) (hsp : sp j = .ok v) :
    validateAndRetry gen jp sp n = (.ok v, 1) := by
  have hattempt : attemptRun gen jp sp 0 = .ok v := by
    unfold attemptRun
    rw [hgen]
    show parseAttempt jp sp (wrapJsonFence txt) = .ok v
    apply parseAttempt_of_direct_ok
    rw [stripFences_wrap txt hfence htrim, hjp]
    show sp j = .ok v
    exact hsp
  unfold validateAndRetry
  show varLoop gen jp sp n (n + 1) 0 none = (.ok v, 1)
  simp only [varLoop, hattempt]

/-- Witness for C9 (amended): the quoted string "ok" wrapped in a ```json
fence is returned unchanged by the first attempt. -/
theorem c9_roundtrip_amended_witness :
    validateAndRetry (fun _ => .ok (wrapJsonFence (jsonStringifyStr ['o', 'k'])))
      jsonParseStr Except.ok 1 = (.ok ['o', 'k'], 1) :=
  c9_roundtrip_amended jsonParseStr Except.ok _
    (jsonStringifyStr ['o', 'k']) ['o', 'k'] ['o', 'k'] 1
    rfl (by decide) (by decide) (by decide) rfl

/-- Witness for C7 (amended): the endpoint and bound facts at concrete
round indices 3 and 5 with maxRounds 5. -/
theorem c7_temperature_amended_witness :
    writerTemperature 5 5 = 3/10 ∧
    3/10 ≤ writerTemperature 3 5 ∧ writerTemperature 3 5 ≤ 7/10 := by
  refine ⟨c7_temperature_amended.2.2.1 5 (by norm_num), ?_, ?_⟩
  · exact (c7_temperature_amended.2.2.2.2 5 3 (by norm_num)).1
  · exact (c7_temperature_amended.2.2.2.2 5 3 (by norm_num)).2
